import Mathlib

/-!
Shallow embedding of `progressbar_printer.go` from solo-io/pterm.

Modelling conventions, fixed once for the whole file:

* Go `int` is modelled as `Int`.  The claims under study never reach the
  64-bit boundary, so wrap-around of Go's fixed-width `int` is out of scope.
* Strings are modelled at the *visible* (colour-stripped) level.  Every
  colour/style wrapper in the source (`Style.Sprint`, `Gray`, `LightWhite`,
  `color.RGB(...).Sprintf`) only adds ANSI escape sequences around its
  argument, and the source itself measures widths with
  `len(RemoveColorFromString(...))`, i.e. after stripping those sequences.
  The embedding therefore works with the stripped text throughout:
  `Style.Sprint` is the identity on visible content and `visible length`
  is `String.length` (character count; the byte/rune distinction of Go's
  `len` does not affect the claims, whose strings are single-cell glyphs).
* Time-valued state (`startedAt`, `ElapsedTimeRoundingFactor`) and the
  sampled terminal width are not shallowly embeddable as such; a render
  environment `RenderEnv` carries the values the code samples at call time:
  the terminal width (`GetTerminalWidth()`), the already-formatted elapsed
  time string (`parseElapsedTime()`), and the global `RawOutput` flag.
* Side effects are captured as an explicit event trace: `Fprinto` of a
  rendered frame, `Fprintln`, `fClearLine`+`Fprinto` (collapsed into one
  clear-line event), `cursor.Hide`/`cursor.Show`, and stopping the
  rerender task.  A frame event also records the printer state the render
  was invoked on, which is exactly the information the frame displays.
* Go `nil`-pointer dereference (the `go.uber.org/atomic` fields before
  `lazyInit`) is a panic; fallible operations therefore return `Option`,
  with `none` for a panic.  The `error` result of `Stop`/`Start` is the
  constant `nil` in the source and is not materialised.
* `int(math.Log10(float64(total)))` is modelled as the exact floor of the
  base-10 logarithm (`intLog10`); Go's float computation agrees with the
  exact value on the totals the claims exercise.
* The process-wide registry `activeProgressBarPrinters` (append on
  `Start`) is not needed by any claim and is omitted, as is the `Writer`
  field (there is a single output sink, the event trace).
-/

namespace Pterm

/-- A style is a set of colour attributes.  At the visible (stripped) level
it carries no information, so it is an empty structure; `Style.Sprint`
is the identity on the visible text. -/
structure Style where
deriving DecidableEq

/-- `pterm.NewStyle()`: the empty style. -/
def NewStyle : Style := {}

/-- `Style.Sprint`: applies colour codes around the text.  At the
colour-stripped level of this embedding it returns the text unchanged. -/
def Style.Sprint (_ : Style) (s : String) : String := s

/-- Values the renderer samples from the outside world at call time:
`GetTerminalWidth()`, the formatted `parseElapsedTime()` string, and the
global `RawOutput` flag. -/
structure RenderEnv where
  termWidth : Int
  elapsed : String
  rawOutput : Bool
deriving DecidableEq

/-- The `ProgressbarPrinter` struct.  `rerenderTask` models the
`*schedule.Task` pointer: `none` is the nil pointer, `some b` a task with
`IsActive() = b`.  `atomicIsActive`/`atomicTitle` model the
`go.uber.org/atomic` pointers: `none` is the nil pointer (dereference
panics), `some v` an initialized atomic holding `v`. -/
structure ProgressbarPrinter where
  Title : String
  Total : Int
  Current : Int
  BarCharacter : String
  LastCharacter : String
  BarFiller : String
  MaxWidth : Int
  ShowElapsedTime : Bool
  ShowCount : Bool
  ShowTitle : Bool
  ShowPercentage : Bool
  RemoveWhenDone : Bool
  TitleStyle : Option Style
  BarStyle : Option Style
  IsActive : Bool
  rerenderTask : Option Bool
  atomicIsActive : Option Bool
  atomicTitle : Option String
deriving DecidableEq

/-- The zero value of the Go struct `ProgressbarPrinter{}`: all fields at
their zero values, in particular both atomic pointers nil. -/
def zeroBar : ProgressbarPrinter :=
  { Title := "", Total := 0, Current := 0, BarCharacter := "",
    LastCharacter := "", BarFiller := "", MaxWidth := 0,
    ShowElapsedTime := false, ShowCount := false, ShowTitle := false,
    ShowPercentage := false, RemoveWhenDone := false,
    TitleStyle := none, BarStyle := none, IsActive := false,
    rerenderTask := none, atomicIsActive := none, atomicTitle := none }

/-- One observable side effect.  `frame st s` is `Fprinto(p.Writer, s)`
emitted by `updateProgress` while the printer was in state `st`;
`newline` is `Fprintln(p.Writer)`; `clearLine` is the
`fClearLine(p.Writer); Fprinto(p.Writer)` pair of the remove-when-done
branch; `printLine s` is `Fprintln(p.Writer, s)` in raw-output mode;
the cursor and task events mirror `cursor.Hide()`, `cursor.Show()` and
`rerenderTask.Stop()`. -/
inductive Event where
  | frame (st : ProgressbarPrinter) (s : String)
  | newline
  | clearLine
  | printLine (s : String)
  | cursorHide
  | cursorShow
  | taskStop
deriving DecidableEq

/-- `lazyInit`: initializes each atomic that is still nil from the plain
field. -/
def lazyInit (p : ProgressbarPrinter) : ProgressbarPrinter :=
  let p1 :=
    match p.atomicIsActive with
    | none => { p with atomicIsActive := some p.IsActive }
    | some _ => p
  match p1.atomicTitle with
  | none => { p1 with atomicTitle := some p1.Title }
  | some _ => p1

/-- `WithTitle`: lazy-init, store the title in the atomic and the plain
field, return the modified copy. -/
def WithTitle (p : ProgressbarPrinter) (name : String) : ProgressbarPrinter :=
  let p1 := lazyInit p
  { p1 with atomicTitle := some name, Title := name }

/-- `WithTotal`: lazy-init and set `Total`. -/
def WithTotal (p : ProgressbarPrinter) (total : Int) : ProgressbarPrinter :=
  { lazyInit p with Total := total }

/-- `WithMaxWidth`: lazy-init and set `MaxWidth`. -/
def WithMaxWidth (p : ProgressbarPrinter) (maxWidth : Int) : ProgressbarPrinter :=
  { lazyInit p with MaxWidth := maxWidth }

/-- The width computation at the top of `getString`:
`if p.MaxWidth <= 0 { width = GetTerminalWidth() } else if
GetTerminalWidth() < p.MaxWidth { width = GetTerminalWidth() } else
{ width = p.MaxWidth }`. -/
def effectiveWidth (maxWidth termWidth : Int) : Int :=
  if maxWidth ≤ 0 then termWidth
  else if termWidth < maxWidth then termWidth
  else maxWidth

/-- Fuelled floor of the base-10 logarithm; `intLog10Aux f n = 0` when the
fuel runs out, which never happens for `f > n`. -/
def intLog10Aux : Nat → Nat → Nat
  | 0, _ => 0
  | f + 1, n => if n < 10 then 0 else intLog10Aux f (n / 10) + 1

/-- `int(math.Log10(float64 n))` for `n ≥ 1`, computed exactly:
`intLog10 n = floor (log10 n)`. -/
def intLog10 (n : Nat) : Nat := intLog10Aux (n + 1) n

/-- Fuelled decimal rendering of a natural number (most significant digit
first); returns `""` when the fuel runs out, which never happens for
`f > n`. -/
def natDecAux : Nat → Nat → String
  | 0, _ => ""
  | f + 1, n =>
    if n < 10 then String.singleton (Nat.digitChar n)
    else natDecAux f (n / 10) ++ String.singleton (Nat.digitChar (n % 10))

/-- Decimal rendering of a natural number, as produced by Go's `%d`. -/
def natDec (n : Nat) : String := natDecAux (n + 1) n

/-- Decimal rendering of an integer, as produced by Go's `%d`. -/
def intDec (n : Int) : String :=
  if n < 0 then "-" ++ natDec n.natAbs else natDec n.toNat

/-- `strings.Repeat s n`. -/
def repeatStr (s : String) : Nat → String
  | 0 => ""
  | n + 1 => s ++ repeatStr s n

/-- Left-pad `s` with zeros to width `w` (no-op if `s` is already that
long). -/
def padZeros (w : Nat) (s : String) : String :=
  repeatStr "0" (w - s.length) ++ s

/-- `fmt.Sprintf("%0*d", w, n)`: zero-pad the decimal rendering of `n` to
total width `w`; for negative `n` the sign leads and counts toward the
width. -/
def zeroPad (w : Nat) (n : Int) : String :=
  if n < 0 then "-" ++ padZeros (w - 1) (natDec n.natAbs)
  else padZeros w (natDec n.toNat)

/-- Left-pad with spaces to width `w`, as in `fmt.Sprintf("%*d", w, n)`. -/
def padSpaces (w : Nat) (s : String) : String :=
  repeatStr " " (w - s.length) ++ s

/-- The `ShowCount` block of `getString`:
`Gray("[") + LightWhite(fmt.Sprintf("%0*d", padding, p.Current)) +
Gray("/") + LightWhite(p.Total) + Gray("]")` with
`padding := 1 + int(math.Log10(float64(p.Total)))`, at the
colour-stripped level. -/
def countBlock (total current : Int) : String :=
  "[" ++ zeroPad (1 + intLog10 total.toNat) current ++ "/" ++ intDec total ++ "]"

/-- Modelled from the spec: `internal.PercentageRound` (the `internal`
numeric helper package is not under `src/`); per §4.1 it computes
`round(current/total * 100)`, here with halves rounded toward
positive infinity.  No claim depends on the tie-break. -/
def percentageRound (total current : Int) : Int :=
  if total = 0 then 0 else Int.tdiv (200 * current + total) (2 * total)

/-- The `ShowPercentage` block: `Sprintf("%3d%%", currentPercentage)`,
with the RGB fade wrapper stripped. -/
def pctBlock (total current : Int) : String :=
  padSpaces 3 (intDec (percentageRound total current)) ++ "%"

/-- The `before` string built by `getString` (title part, then count
part), given the title loaded from the atomic. -/
def beforeStr (p : ProgressbarPrinter) (title : String) : String :=
  (if p.ShowTitle then (p.TitleStyle.getD NewStyle).Sprint title ++ " " else "")
    ++ (if p.ShowCount then countBlock p.Total p.Current ++ " " else "")

/-- The `after` string built by `getString`: a space, then the optional
percentage block, then the optional `"| " + parseElapsedTime()`. -/
def afterStr (p : ProgressbarPrinter) (env : RenderEnv) : String :=
  " " ++ (if p.ShowPercentage then pctBlock p.Total p.Current ++ " " else "")
    ++ (if p.ShowElapsedTime then "| " ++ env.elapsed else "")

/-- `barMaxLength := width - len(RemoveColorFromString(before)) -
len(RemoveColorFromString(after)) - 1`. -/
def barMaxLength (p : ProgressbarPrinter) (env : RenderEnv) (title : String) : Int :=
  effectiveWidth p.MaxWidth env.termWidth
    - ((beforeStr p title).length : Int) - ((afterStr p env).length : Int) - 1

/-- `barCurrentLength := (p.Current * barMaxLength) / p.Total`: Go's `/`
on `int` truncates toward zero, i.e. `Int.tdiv`. -/
def barCurrentLength (current total bml : Int) : Int :=
  Int.tdiv (current * bml) total

/-- `getString` defaults nil styles to `NewStyle()` on the receiver. -/
def defaultStyles (p : ProgressbarPrinter) : ProgressbarPrinter :=
  { p with TitleStyle := some (p.TitleStyle.getD NewStyle),
           BarStyle := some (p.BarStyle.getD NewStyle) }

/-- The body of `getString` after the guards: builds `before`, `after`,
the bar and the filler, and concatenates.  `title` is the value loaded
from `atomicTitle` (unused when `ShowTitle` is false, mirroring that the
source only loads the atomic inside the `ShowTitle` branch). -/
def renderBody (q : ProgressbarPrinter) (env : RenderEnv) (title : String) : String :=
  let bml := barMaxLength q env title
  let bcl := barCurrentLength q.Current q.Total bml
  let fill := if 0 < bml - bcl then repeatStr q.BarFiller (bml - bcl).toNat else ""
  let bar :=
    if 0 < bcl then
      (q.BarStyle.getD NewStyle).Sprint (repeatStr q.BarCharacter bcl.toNat ++ q.LastCharacter) ++ fill
    else fill
  beforeStr q title ++ bar ++ afterStr q env

/-- `ProgressbarPrinter.getString`.  Returns the (possibly
style-defaulted) receiver state and the rendered string; `none` models
the nil-atomic panic.  Mirrors the source's order: load `atomicIsActive`,
default the styles, check `Total == 0`, then build the line (loading
`atomicTitle` only when the title is shown). -/
def getString (p : ProgressbarPrinter) (env : RenderEnv) :
    Option (ProgressbarPrinter × String) :=
  match p.atomicIsActive with
  | none => none
  | some false => some (p, "")
  | some true =>
    if (defaultStyles p).Total = 0 then some (defaultStyles p, "")
    else if (defaultStyles p).ShowTitle then
      match (defaultStyles p).atomicTitle with
      | none => none
      | some t => some (defaultStyles p, renderBody (defaultStyles p) env t)
    else some (defaultStyles p, renderBody (defaultStyles p) env "")

/-- `updateProgress`: `Fprinto(p.Writer, p.getString())`, recorded as one
`frame` event carrying the pre-render state. -/
def updateProgress (p : ProgressbarPrinter) (env : RenderEnv) :
    Option (ProgressbarPrinter × List Event) :=
  match getString p env with
  | none => none
  | some (p', s) => some (p', [Event.frame p s])

/-- The task-cancelling prologue of `Stop`:
`if p.rerenderTask != nil && p.rerenderTask.IsActive() { p.rerenderTask.Stop() }`. -/
def stopTask (p : ProgressbarPrinter) : ProgressbarPrinter :=
  if p.rerenderTask = some true then { p with rerenderTask := some false } else p

/-- Events of the `Stop` prologue: the optional task cancellation
followed by the unconditional `cursor.Show()`. -/
def stopTaskEvents (p : ProgressbarPrinter) : List Event :=
  if p.rerenderTask = some true then [Event.taskStop, Event.cursorShow]
  else [Event.cursorShow]

/-- `ProgressbarPrinter.Stop`.  Stops the rerender task if present and
active, always shows the cursor, then — only if the atomic active flag is
set — clears it and emits the final output (clear line when
`RemoveWhenDone`, else a newline).  The Go `error` result is the constant
`nil`. -/
def Stop (p : ProgressbarPrinter) : Option (ProgressbarPrinter × List Event) :=
  match (stopTask p).atomicIsActive with
  | none => none
  | some false => some (stopTask p, stopTaskEvents p)
  | some true =>
    if p.RemoveWhenDone then
      some ({ stopTask p with IsActive := false, atomicIsActive := some false },
        stopTaskEvents p ++ [Event.clearLine])
    else
      some ({ stopTask p with IsActive := false, atomicIsActive := some false },
        stopTaskEvents p ++ [Event.newline])

/-- The result of `ProgressbarPrinter.Add`: the Go return value (`none`
models the `nil` "not started" return), the final state of the receiver,
and the emitted events. -/
structure AddOut where
  ret : Option ProgressbarPrinter
  state : ProgressbarPrinter
  events : List Event
deriving DecidableEq

/-- `ProgressbarPrinter.Add`: guard on `Total == 0`, add `count` to
`Current`, render; if `Current >= Total`, clamp `Total = Current`, render
again and call `Stop`. -/
def Add (p : ProgressbarPrinter) (env : RenderEnv) (count : Int) : Option AddOut :=
  if p.Total = 0 then some ⟨none, p, []⟩
  else
    match updateProgress { p with Current := p.Current + count } env with
    | none => none
    | some (p2, ev1) =>
      if p2.Total ≤ p2.Current then
        match updateProgress { p2 with Total := p2.Current } env with
        | none => none
        | some (p4, ev2) =>
          match Stop p4 with
          | none => none
          | some (p5, ev3) => some ⟨some p5, p5, ev1 ++ ev2 ++ ev3⟩
      else some ⟨some p2, p2, ev1⟩

/-- `Increment`: sugar for `Add 1`. -/
def Increment (p : ProgressbarPrinter) (env : RenderEnv) : Option AddOut :=
  Add p env 1

/-- `UpdateTitle`: store the new title in the atomic (panic if nil) and
the plain field, then re-render. -/
def UpdateTitle (p : ProgressbarPrinter) (env : RenderEnv) (title : String) :
    Option (ProgressbarPrinter × List Event) :=
  match p.atomicTitle with
  | none => none
  | some _ =>
    updateProgress { p with atomicTitle := some title, Title := title } env

/-- `ProgressbarPrinter.Start` (value receiver: operates on a copy):
lazy-init, hide the cursor, set the active flags, optionally override the
title, print the raw-output line when applicable, render once, and
schedule the rerender task when elapsed time is shown.  Registry append
and `startedAt` stamping carry no information for the claims and are
omitted. -/
def Start (p : ProgressbarPrinter) (env : RenderEnv) (title : Option String) :
    Option (ProgressbarPrinter × List Event) :=
  let pa := lazyInit p
  let pb := { pa with IsActive := true, atomicIsActive := some true }
  let pc :=
    match title with
    | some t => { pb with Title := t, atomicTitle := some t }
    | none => pb
  let ev0 := [Event.cursorHide]
    ++ (if env.rawOutput && pc.ShowTitle then [Event.printLine (pc.atomicTitle.getD "")] else [])
  match updateProgress pc env with
  | none => none
  | some (p', ev1) =>
    let p'' := if p'.ShowElapsedTime then { p' with rerenderTask := some true } else p'
    some (p'', ev0 ++ ev1)

/-- True exactly on the `cursorShow` event, which each `Stop` call emits
exactly once: it marks one `Stop` invocation in a trace. -/
def isStopMark : Event → Bool
  | Event.cursorShow => true
  | _ => false

/-- Number of `Stop` invocations recorded in a trace. -/
def stopMarks (evs : List Event) : Nat := (evs.filter isStopMark).length

/-- True on frame events whose state satisfies `Current = Total` (a 100%
frame). -/
def frameAtFull : Event → Bool
  | Event.frame q _ => decide (q.Current = q.Total)
  | _ => false

/-- True unless the event is a frame rendered with `Current > Total`. -/
def frameOk : Event → Bool
  | Event.frame q _ => decide (q.Current ≤ q.Total)
  | _ => true

/-- True on frame events whose state has `Total < Current` (a frame past
100%). -/
def frameOvershoot : Event → Bool
  | Event.frame q _ => decide (q.Total < q.Current)
  | _ => false

/-- A fixed render environment for the concrete test bars: terminal 80
columns wide, empty elapsed-time string, raw output off. -/
def cEnv : RenderEnv := { termWidth := 80, elapsed := "", rawOutput := false }

/-- A started bar in its simplest visible configuration: ASCII one-cell
glyphs, every optional block switched off, `MaxWidth` 10, atomics
initialized, active. -/
def mkBar (total current : Int) : ProgressbarPrinter :=
  { Title := "", Total := total, Current := current,
    BarCharacter := "#", LastCharacter := "#", BarFiller := "-",
    MaxWidth := 10, ShowElapsedTime := false, ShowCount := false,
    ShowTitle := false, ShowPercentage := false, RemoveWhenDone := false,
    TitleStyle := some NewStyle, BarStyle := some NewStyle,
    IsActive := true, rerenderTask := none,
    atomicIsActive := some true, atomicTitle := some "" }

/-- The embedding renders concretely: a bar at 2 of 5 in a width of 10
draws four filled cells (three bar characters and the cap), five filler
cells and the separating space. -/
example : getString (mkBar 5 2) cEnv = some (mkBar 5 2, "####----- ") := by decide

/-- The count block zero-pads to the total's digit width. -/
example : countBlock 100 7 = "[007/100]" := by decide

/-! ### Structural helper lemmas -/

lemma getString_state {p : ProgressbarPrinter} {env : RenderEnv}
    {q : ProgressbarPrinter} {s : String} (h : getString p env = some (q, s)) :
    q = p ∨ q = defaultStyles p := by
  unfold getString at h
  split at h
  · exact absurd h (by simp)
  · simp only [Option.some.injEq, Prod.mk.injEq] at h
    exact Or.inl h.1.symm
  · split at h
    · simp only [Option.some.injEq, Prod.mk.injEq] at h
      exact Or.inr h.1.symm
    · split at h
      · split at h
        · exact absurd h (by simp)
        · simp only [Option.some.injEq, Prod.mk.injEq] at h
          exact Or.inr h.1.symm
      · simp only [Option.some.injEq, Prod.mk.injEq] at h
        exact Or.inr h.1.symm

lemma getString_pres {p : ProgressbarPrinter} {env : RenderEnv}
    {q : ProgressbarPrinter} {s : String} (h : getString p env = some (q, s)) :
    q.Current = p.Current ∧ q.Total = p.Total ∧
    q.atomicIsActive = p.atomicIsActive ∧ q.atomicTitle = p.atomicTitle ∧
    q.rerenderTask = p.rerenderTask ∧ q.RemoveWhenDone = p.RemoveWhenDone := by
  rcases getString_state h with rfl | rfl
  · exact ⟨rfl, rfl, rfl, rfl, rfl, rfl⟩
  · simp [defaultStyles]

lemma updateProgress_some {p : ProgressbarPrinter} {env : RenderEnv}
    {q : ProgressbarPrinter} {ev : List Event}
    (h : updateProgress p env = some (q, ev)) :
    ∃ s, getString p env = some (q, s) ∧ ev = [Event.frame p s] := by
  cases hg : getString p env with
  | none => simp [updateProgress, hg] at h
  | some r =>
    obtain ⟨p', s⟩ := r
    simp only [updateProgress, hg, Option.some.injEq, Prod.mk.injEq] at h
    obtain ⟨h1, h2⟩ := h
    exact ⟨s, by rw [h1], h2.symm⟩

lemma stopTask_Current (p : ProgressbarPrinter) : (stopTask p).Current = p.Current := by
  unfold stopTask; split <;> simp

lemma stopTask_Total (p : ProgressbarPrinter) : (stopTask p).Total = p.Total := by
  unfold stopTask; split <;> simp

lemma stopTask_atomicIsActive (p : ProgressbarPrinter) :
    (stopTask p).atomicIsActive = p.atomicIsActive := by
  unfold stopTask; split <;> simp

lemma stopTask_atomicTitle (p : ProgressbarPrinter) :
    (stopTask p).atomicTitle = p.atomicTitle := by
  unfold stopTask; split <;> simp

lemma stopTask_rerenderTask (p : ProgressbarPrinter) :
    (stopTask p).rerenderTask ≠ some true := by
  unfold stopTask; split
  · simp
  · next h => simpa using h

lemma stopMarks_stopTaskEvents (p : ProgressbarPrinter) :
    stopMarks (stopTaskEvents p) = 1 := by
  unfold stopTaskEvents; split <;> rfl

lemma all_frameOk_stopTaskEvents (p : ProgressbarPrinter) :
    (stopTaskEvents p).all frameOk = true := by
  unfold stopTaskEvents; split <;> rfl

lemma stopMarks_append (a b : List Event) :
    stopMarks (a ++ b) = stopMarks a + stopMarks b := by
  simp [stopMarks, List.filter_append]

lemma Stop_some {p q : ProgressbarPrinter} {ev : List Event}
    (h : Stop p = some (q, ev)) :
    q.Current = p.Current ∧ q.Total = p.Total ∧
    q.atomicIsActive = some false ∧ q.rerenderTask ≠ some true ∧
    q.atomicTitle = p.atomicTitle ∧
    stopMarks ev = 1 ∧ ev.all frameOk = true := by
  unfold Stop at h
  split at h
  · exact absurd h (by simp)
  · next hA =>
    simp only [Option.some.injEq, Prod.mk.injEq] at h
    obtain ⟨h1, h2⟩ := h
    subst h1; subst h2
    exact ⟨stopTask_Current p, stopTask_Total p, hA,
      stopTask_rerenderTask p, stopTask_atomicTitle p,
      stopMarks_stopTaskEvents p, all_frameOk_stopTaskEvents p⟩
  · split at h
    all_goals {
      simp only [Option.some.injEq, Prod.mk.injEq] at h
      obtain ⟨h1, h2⟩ := h
      subst h1; subst h2
      refine ⟨stopTask_Current p, stopTask_Total p, rfl,
        stopTask_rerenderTask p, stopTask_atomicTitle p, ?_, ?_⟩
      · rw [stopMarks_append, stopMarks_stopTaskEvents]; rfl
      · simp [List.all_append, all_frameOk_stopTaskEvents p, frameOk]
    }

lemma Stop_isSome {p : ProgressbarPrinter} (h : p.atomicIsActive.isSome) :
    (Stop p).isSome := by
  unfold Stop
  rw [stopTask_atomicIsActive]
  cases hA : p.atomicIsActive with
  | none => simp [hA] at h
  | some b =>
    cases b with
    | false => simp
    | true => simp only []; split <;> simp

/-! ### String and digit arithmetic -/

lemma length_singleton (c : Char) : (String.singleton c).length = 1 := rfl

lemma length_repeatStr (s : String) (n : Nat) :
    (repeatStr s n).length = n * s.length := by
  induction n with
  | zero => simp [repeatStr]
  | succ n ih => simp [repeatStr, String.length_append, ih, Nat.succ_mul]; omega

lemma length_padZeros (w : Nat) (s : String) :
    (padZeros w s).length = max w s.length := by
  simp [padZeros, String.length_append, length_repeatStr,
    show ("0" : String).length = 1 from rfl]
  omega

lemma length_padSpaces (w : Nat) (s : String) :
    (padSpaces w s).length = max w s.length := by
  simp [padSpaces, String.length_append, length_repeatStr,
    show (" " : String).length = 1 from rfl]
  omega

lemma natDecAux_length (f : Nat) : ∀ {g n : Nat}, n < f → n < g →
    (natDecAux f n).length = intLog10Aux g n + 1 := by
  induction f with
  | zero => intro g n hf _; omega
  | succ f ih =>
    intro g n hf hg
    cases g with
    | zero => omega
    | succ g =>
      by_cases h10 : n < 10
      · simp [natDecAux, intLog10Aux, h10, length_singleton]
      · have hdf : n / 10 < f := by omega
        have hdg : n / 10 < g := by omega
        simp [natDecAux, intLog10Aux, h10, String.length_append,
          length_singleton, ih hdf hdg]

lemma length_natDec (n : Nat) : (natDec n).length = intLog10 n + 1 :=
  natDecAux_length (n + 1) (Nat.lt_succ_self n) (Nat.lt_succ_self n)

lemma lt_pow_intLog10Aux : ∀ (g : Nat) {n : Nat}, n < g →
    n < 10 ^ (intLog10Aux g n + 1) := by
  intro g
  induction g with
  | zero => intro n hg; omega
  | succ g ih =>
    intro n hg
    by_cases h10 : n < 10
    · simp [intLog10Aux, h10]
    · have hdg : n / 10 < g := by omega
      have hrec := ih hdg
      simp only [intLog10Aux, h10, if_false]
      have h1 : n < 10 * (n / 10) + 10 := by omega
      have h2 : 10 * (n / 10) + 10 ≤ 10 * 10 ^ (intLog10Aux g (n / 10) + 1) := by
        have : n / 10 + 1 ≤ 10 ^ (intLog10Aux g (n / 10) + 1) := hrec
        calc 10 * (n / 10) + 10 = 10 * (n / 10 + 1) := by ring
          _ ≤ 10 * 10 ^ (intLog10Aux g (n / 10) + 1) := Nat.mul_le_mul_left 10 this
      calc n < 10 * (n / 10) + 10 := h1
        _ ≤ 10 * 10 ^ (intLog10Aux g (n / 10) + 1) := h2
        _ = 10 ^ (intLog10Aux g (n / 10) + 1 + 1) := by ring

lemma lt_pow_intLog10 (n : Nat) : n < 10 ^ (intLog10 n + 1) :=
  lt_pow_intLog10Aux (n + 1) (Nat.lt_succ_self n)

lemma natDecAux_length_le (f : Nat) : ∀ {n k : Nat}, n < f → n < 10 ^ k → 0 < k →
    (natDecAux f n).length ≤ k := by
  induction f with
  | zero => intro n k hf _ _; omega
  | succ f ih =>
    intro n k hf hk h0
    by_cases h10 : n < 10
    · simpa [natDecAux, h10, length_singleton] using h0
    · have hk2 : 2 ≤ k := by
        rcases Nat.lt_or_ge k 2 with h | h
        · interval_cases k
          omega
        · exact h
      have hdf : n / 10 < f := by omega
      have hdk : n / 10 < 10 ^ (k - 1) := by
        have : 10 ^ k = 10 ^ (k - 1) * 10 := by
          rw [← pow_succ]
          congr 1
          omega
        rw [Nat.div_lt_iff_lt_mul (by norm_num : (0:Nat) < 10), ← this]
        exact hk
      have := ih hdf hdk (by omega)
      simp only [natDecAux, h10, if_false, String.length_append, length_singleton]
      omega

lemma length_natDec_le {n k : Nat} (hk : n < 10 ^ k) (h0 : 0 < k) :
    (natDec n).length ≤ k :=
  natDecAux_length_le (n + 1) (Nat.lt_succ_self n) hk h0

/-! ### Integer division transport -/

lemma tdiv_natCast (m n : Nat) : Int.tdiv (↑m) (↑n) = ↑(m / n) :=
  (Int.ofNat_tdiv m n).symm

lemma barCurrentLength_natCast (c t m : Nat) :
    barCurrentLength (↑c) (↑t) (↑m) = ↑(c * m / t) := by
  unfold barCurrentLength
  rw [show ((c : Int) * (m : Int)) = ((c * m : Nat) : Int) by push_cast; ring]
  exact tdiv_natCast _ _

/-- Core width bound: whenever the drawable bar area is nonnegative and
the three bar glyphs are single characters, the line built by
`renderBody` is at most the effective width (exactly the width when the
filled part is nonempty, one less otherwise). -/
lemma length_renderBody (q : ProgressbarPrinter) (env : RenderEnv) (title : String)
    (hT : 0 < q.Total) (hc0 : 0 ≤ q.Current) (hct : q.Current ≤ q.Total)
    (hbml : 0 ≤ barMaxLength q env title)
    (h1 : q.BarCharacter.length = 1) (h2 : q.LastCharacter.length = 1)
    (h3 : q.BarFiller.length = 1) :
    ((renderBody q env title).length : Int) ≤ effectiveWidth q.MaxWidth env.termWidth := by
  obtain ⟨c, hc⟩ := Int.eq_ofNat_of_zero_le hc0
  obtain ⟨t, ht⟩ := Int.eq_ofNat_of_zero_le (le_of_lt hT)
  obtain ⟨m, hm⟩ := Int.eq_ofNat_of_zero_le hbml
  have htpos : 0 < t := by omega
  have hctn : c ≤ t := by omega
  have hbcl : barCurrentLength q.Current q.Total ((m : Nat) : Int)
      = ((c * m / t : Nat) : Int) := by
    rw [hc, ht, barCurrentLength_natCast]
  have hkm : c * m / t ≤ m := by
    calc c * m / t ≤ t * m / t := Nat.div_le_div_right (Nat.mul_le_mul_right m hctn)
      _ = m := Nat.mul_div_cancel_left m htpos
  obtain ⟨k, hkdef⟩ : ∃ k, k = c * m / t := ⟨_, rfl⟩
  rw [← hkdef] at hbcl hkm
  have hW : ((m : Int)) = effectiveWidth q.MaxWidth env.termWidth
      - ((beforeStr q title).length : Int) - ((afterStr q env).length : Int) - 1 := by
    rw [← hm]; rfl
  simp only [renderBody, hbcl, hm, Style.Sprint]
  rw [String.length_append, String.length_append]
  split_ifs with hb hf hf <;>
    simp only [String.length_append, length_repeatStr, h1, h2, h3,
      show ("" : String).length = 0 from rfl, Int.toNat_natCast, Int.toNat_sub] <;>
    omega

lemma updateProgress_pres {p : ProgressbarPrinter} {env : RenderEnv}
    {q : ProgressbarPrinter} {ev : List Event}
    (h : updateProgress p env = some (q, ev)) :
    q.Current = p.Current ∧ q.Total = p.Total ∧
    q.atomicIsActive = p.atomicIsActive ∧ q.atomicTitle = p.atomicTitle ∧
    q.rerenderTask = p.rerenderTask ∧ q.RemoveWhenDone = p.RemoveWhenDone := by
  obtain ⟨s, hg, -⟩ := updateProgress_some h
  exact getString_pres hg

lemma barMaxLength_not_showTitle {q : ProgressbarPrinter} (hsh : q.ShowTitle = false)
    (env : RenderEnv) (t1 t2 : String) :
    barMaxLength q env t1 = barMaxLength q env t2 := by
  simp [barMaxLength, beforeStr, hsh]

lemma getString_isSome {p : ProgressbarPrinter} {env : RenderEnv}
    (h1 : p.atomicIsActive.isSome) (h2 : p.atomicTitle.isSome) :
    (getString p env).isSome := by
  unfold getString
  cases hA : p.atomicIsActive with
  | none => simp [hA] at h1
  | some b =>
    cases b with
    | false => simp
    | true =>
      simp only []
      split
      · simp
      · split
        · rw [show (defaultStyles p).atomicTitle = p.atomicTitle from rfl]
          cases hT : p.atomicTitle with
          | none => simp [hT] at h2
          | some t => simp
        · simp

lemma updateProgress_isSome {p : ProgressbarPrinter} {env : RenderEnv}
    (h1 : p.atomicIsActive.isSome) (h2 : p.atomicTitle.isSome) :
    (updateProgress p env).isSome := by
  unfold updateProgress
  cases hg : getString p env with
  | none => exact absurd (@getString_isSome p env h1 h2) (by simp [hg])
  | some r => simp

lemma lazyInit_atomics (p : ProgressbarPrinter) :
    ((lazyInit p).atomicIsActive).isSome ∧ ((lazyInit p).atomicTitle).isSome := by
  cases hA : p.atomicIsActive <;> cases hT : p.atomicTitle <;>
    simp [lazyInit, hA, hT]

lemma stopMarks_frame (st : ProgressbarPrinter) (s : String) :
    stopMarks [Event.frame st s] = 0 := rfl

/-! ### Claim theorems -/

/-- C7: the effective layout width equals `min(terminalWidth, maxWidth)`
when `maxWidth > 0`, and `terminalWidth` when `maxWidth ≤ 0`. -/
theorem effectiveWidth_min (maxWidth termWidth : Int) :
    effectiveWidth maxWidth termWidth =
      if 0 < maxWidth then min termWidth maxWidth else termWidth := by
  unfold effectiveWidth
  rw [min_def]
  split_ifs <;> omega

/-- C3: `Add` on a bar whose `Total` is 0 returns the nil "not started"
result, leaves the state unchanged, and emits no output. -/
theorem Add_total_zero_noop (p : ProgressbarPrinter) (env : RenderEnv) (count : Int)
    (hT : p.Total = 0) : Add p env count = some ⟨none, p, []⟩ := by
  unfold Add
  rw [if_pos hT]

/-- Witness for C3 at the zero-value bar. -/
theorem Add_total_zero_noop_witness :
    Add zeroBar cEnv 7 = some ⟨none, zeroBar, []⟩ :=
  Add_total_zero_noop zeroBar cEnv 7 rfl

/-- C6: the filled length `barCurrentLength` is the floor of
`current * barMaxLength / total` (Go's truncating division agrees with
the floor on these nonnegative operands), and it is monotone under
`current ↦ current + 1`, so repeated `Add(1)` calls never decrease it. -/
theorem barCurrentLength_floor_mono (cur total bml : Int)
    (hc : 0 ≤ cur) (ht : 0 < total) (hb : 0 ≤ bml) :
    barCurrentLength cur total bml = Int.fdiv (cur * bml) total ∧
    barCurrentLength cur total bml ≤ barCurrentLength (cur + 1) total bml := by
  obtain ⟨c, rfl⟩ := Int.eq_ofNat_of_zero_le hc
  obtain ⟨t, rfl⟩ := Int.eq_ofNat_of_zero_le (le_of_lt ht)
  obtain ⟨m, rfl⟩ := Int.eq_ofNat_of_zero_le hb
  constructor
  · rw [barCurrentLength_natCast,
      show ((c : Int) * (m : Int)) = ((c * m : Nat) : Int) by push_cast; ring,
      ← Int.ofNat_fdiv]
  · rw [barCurrentLength_natCast,
      show ((c : Int) + 1) = ((c + 1 : Nat) : Int) by push_cast; ring,
      barCurrentLength_natCast]
    exact_mod_cast Nat.div_le_div_right (Nat.mul_le_mul_right m (Nat.le_succ c))

/-- Witness for C6 at current 2, total 5, barMaxLength 8. -/
theorem barCurrentLength_floor_mono_witness :
    barCurrentLength 2 5 8 = Int.fdiv (2 * 8) 5 ∧
    barCurrentLength 2 5 8 ≤ barCurrentLength (2 + 1) 5 8 :=
  barCurrentLength_floor_mono 2 5 8 (by decide) (by decide) (by decide)

/-- C9: when the count block is shown, `current` is zero-padded to a fixed
width of `1 + floor(log10 total)` digits, for every `0 ≤ current ≤ total`. -/
theorem countBlock_fixed_padding (total current : Int)
    (ht : 0 < total) (hc0 : 0 ≤ current) (hct : current ≤ total) :
    (zeroPad (1 + intLog10 total.toNat) current).length
      = 1 + intLog10 total.toNat := by
  have hcn : ¬(current < 0) := not_lt.mpr hc0
  rw [zeroPad, if_neg hcn, length_padZeros]
  have h1 : current.toNat ≤ total.toNat := by omega
  have h2 : total.toNat < 10 ^ (intLog10 total.toNat + 1) := lt_pow_intLog10 _
  have hlen : (natDec current.toNat).length ≤ intLog10 total.toNat + 1 :=
    length_natDec_le (lt_of_le_of_lt h1 h2) (by omega)
  omega

/-- Witness for C9: with total 100 the count is rendered with exactly 3
digits for current 1, 10 and 100. -/
theorem countBlock_fixed_padding_witness :
    (zeroPad (1 + intLog10 (100 : Int).toNat) 1).length = 3 ∧
    (zeroPad (1 + intLog10 (100 : Int).toNat) 10).length = 3 ∧
    (zeroPad (1 + intLog10 (100 : Int).toNat) 100).length = 3 :=
  ⟨(countBlock_fixed_padding 100 1 (by decide) (by decide) (by decide)).trans (by decide),
   (countBlock_fixed_padding 100 10 (by decide) (by decide) (by decide)).trans (by decide),
   (countBlock_fixed_padding 100 100 (by decide) (by decide) (by decide)).trans (by decide)⟩

/-- A bar whose title is 20 characters long while the effective width is
10: a concrete configuration on which the unamended C2 fails. -/
def c2wideBar : ProgressbarPrinter :=
  { mkBar 5 0 with ShowTitle := true, atomicTitle := some "aaaaaaaaaaaaaaaaaaaa" }

/-- C2 as stated is false: with a 20-character title and effective width
10 (total 5, current 0, so `0 ≤ current ≤ total` holds), the rendered
line is strictly longer than the effective width. -/
theorem getString_width_cex :
    (getString c2wideBar cEnv).map
        (fun r => decide (effectiveWidth c2wideBar.MaxWidth cEnv.termWidth
          < (r.2.length : Int)))
      = some true := by decide

/-- C2 amended: for an active bar with `0 < Total`,
`0 ≤ Current ≤ Total`, single-character bar glyphs, and a prefix/suffix
that leave a nonnegative drawable area (`0 ≤ barMaxLength`), the visible
length of the rendered string never exceeds the effective width. -/
theorem getString_length_le (p : ProgressbarPrinter) (env : RenderEnv)
    (p' : ProgressbarPrinter) (s : String)
    (hact : p.atomicIsActive = some true)
    (hT : 0 < p.Total) (hc0 : 0 ≤ p.Current) (hct : p.Current ≤ p.Total)
    (hbml : 0 ≤ barMaxLength (defaultStyles p) env (p.atomicTitle.getD ""))
    (hbc : p.BarCharacter.length = 1) (hlc : p.LastCharacter.length = 1)
    (hbf : p.BarFiller.length = 1)
    (h : getString p env = some (p', s)) :
    (s.length : Int) ≤ effectiveWidth p.MaxWidth env.termWidth := by
  unfold getString at h
  split at h
  · exact absurd h (by simp)
  · next hA => rw [hact] at hA; exact absurd hA (by simp)
  · have hT0 : ¬((defaultStyles p).Total = 0) := by
      show ¬(p.Total = 0); omega
    rw [if_neg hT0] at h
    by_cases hshow : (defaultStyles p).ShowTitle = true
    · rw [if_pos hshow] at h
      cases hti : (defaultStyles p).atomicTitle with
      | none => rw [hti] at h; exact absurd h (by simp)
      | some t =>
        rw [hti] at h
        simp only [Option.some.injEq, Prod.mk.injEq] at h
        obtain ⟨h1, h2⟩ := h
        rw [← h2]
        have htd : p.atomicTitle.getD "" = t := by
          rw [show p.atomicTitle = (defaultStyles p).atomicTitle from rfl, hti]
          rfl
        rw [htd] at hbml
        exact length_renderBody (defaultStyles p) env t hT hc0 hct hbml hbc hlc hbf
    · rw [if_neg hshow] at h
      simp only [Option.some.injEq, Prod.mk.injEq] at h
      obtain ⟨h1, h2⟩ := h
      rw [← h2]
      have hsh : (defaultStyles p).ShowTitle = false := by
        simpa using hshow
      rw [barMaxLength_not_showTitle hsh env _ ""] at hbml
      exact length_renderBody (defaultStyles p) env "" hT hc0 hct hbml hbc hlc hbf

/-- Witness for the amended C2 at a concrete bar (total 5, current 2,
effective width 10). -/
theorem getString_length_le_witness :
    ((((getString (mkBar 5 2) cEnv).getD (mkBar 5 2, "")).2.length : Int))
      ≤ effectiveWidth (mkBar 5 2).MaxWidth cEnv.termWidth :=
  getString_length_le (mkBar 5 2) cEnv _ _ rfl (by decide) (by decide) (by decide)
    (by decide) (by decide) (by decide) (by decide) rfl

/-- C8 as stated is false: `Add` with a negative count decreases
`Current` (total 5, current 3, `Add(-1)` leaves current 2). -/
theorem Add_negative_count_cex :
    (Add (mkBar 5 3) cEnv (-1)).map
        (fun o => decide ((mkBar 5 3).Current ≤ o.state.Current))
      = some false := by decide

/-- C8 amended: for nonnegative counts, `Current` is monotonically
non-decreasing under `Add` (whether or not the call completes the bar). -/
theorem Add_current_monotone (p : ProgressbarPrinter) (env : RenderEnv) (c : Int)
    (out : AddOut) (hc : 0 ≤ c) (h : Add p env c = some out) :
    p.Current ≤ out.state.Current := by
  unfold Add at h
  split at h
  · simp only [Option.some.injEq] at h
    subst h
    exact le_refl _
  · split at h
    · exact absurd h (by simp)
    · next p2 ev1 hup =>
      have hpres := updateProgress_pres hup
      have e3 : p2.Current = p.Current + c := by simpa using hpres.1
      split at h
      · split at h
        · exact absurd h (by simp)
        · next p4 ev2 hup2 =>
          have hpres2 := updateProgress_pres hup2
          have e2 : p4.Current = p2.Current := by simpa using hpres2.1
          split at h
          · exact absurd h (by simp)
          · next p5 ev3 hstop =>
            have e1 : p5.Current = p4.Current := (Stop_some hstop).1
            simp only [Option.some.injEq] at h
            subst h
            show p.Current ≤ p5.Current
            omega
      · simp only [Option.some.injEq] at h
        subst h
        show p.Current ≤ p2.Current
        omega

/-- Witness for the amended C8 at a concrete non-completing call. -/
theorem Add_current_monotone_witness :
    (mkBar 5 0).Current
      ≤ ((Add (mkBar 5 0) cEnv 2).getD ⟨none, mkBar 5 0, []⟩).state.Current :=
  Add_current_monotone (mkBar 5 0) cEnv 2 _ (by decide) rfl

/-- C1: on a bar with `Total ≠ 0`, `Add count` increments `Current` by
`count` and first emits one render frame at the incremented state; if the
new current reaches the total, the total is clamped to the current, one
more frame is emitted — at a state with `Current = Total` (a 100% frame)
— and `Stop` is invoked exactly once; otherwise the total is unchanged
and no stop happens. -/
theorem Add_lifecycle (p : ProgressbarPrinter) (env : RenderEnv) (count : Int)
    (out : AddOut) (hT : p.Total ≠ 0) (h : Add p env count = some out) :
    out.state.Current = p.Current + count ∧
    (∃ s rest, out.events
        = Event.frame { p with Current := p.Current + count } s :: rest) ∧
    (p.Total ≤ p.Current + count →
      out.state.Total = p.Current + count ∧ stopMarks out.events = 1 ∧
      ((out.events.drop 1).head?.map frameAtFull) = some true) ∧
    (p.Current + count < p.Total →
      out.state.Total = p.Total ∧ stopMarks out.events = 0) := by
  unfold Add at h
  rw [if_neg hT] at h
  split at h
  · exact absurd h (by simp)
  · next p2 ev1 hup =>
    obtain ⟨s1, hg1, hev1⟩ := updateProgress_some hup
    have hpres := getString_pres hg1
    have e3 : p2.Current = p.Current + count := by simpa using hpres.1
    have eT : p2.Total = p.Total := by simpa using hpres.2.1
    split at h
    · next hge =>
      split at h
      · exact absurd h (by simp)
      · next p4 ev2 hup2 =>
        obtain ⟨s2, hg2, hev2⟩ := updateProgress_some hup2
        have hpres2 := getString_pres hg2
        have e2 : p4.Current = p2.Current := by simpa using hpres2.1
        have eT2 : p4.Total = p2.Current := by simpa using hpres2.2.1
        split at h
        · exact absurd h (by simp)
        · next p5 ev3 hstop =>
          have hs := Stop_some hstop
          have hsC : p5.Current = p4.Current := hs.1
          have hsT : p5.Total = p4.Total := hs.2.1
          have hsM : stopMarks ev3 = 1 := hs.2.2.2.2.2.1
          simp only [Option.some.injEq] at h
          subst h
          refine ⟨?_, ?_, ?_, ?_⟩
          · show p5.Current = p.Current + count
            omega
          · refine ⟨s1, ev2 ++ ev3, ?_⟩
            show ev1 ++ ev2 ++ ev3
              = Event.frame { p with Current := p.Current + count } s1 :: (ev2 ++ ev3)
            rw [hev1]
            simp
          · intro _
            refine ⟨?_, ?_, ?_⟩
            · show p5.Total = p.Current + count
              omega
            · show stopMarks (ev1 ++ ev2 ++ ev3) = 1
              rw [hev1, hev2, stopMarks_append, stopMarks_append,
                stopMarks_frame, stopMarks_frame]
              omega
            · show (((ev1 ++ ev2 ++ ev3).drop 1).head?.map frameAtFull) = some true
              rw [hev1, hev2]
              simp [frameAtFull]
          · intro hlt
            omega
    · next hge =>
      simp only [Option.some.injEq] at h
      subst h
      refine ⟨e3, ⟨s1, [], by rw [hev1]⟩, ?_, ?_⟩
      · intro hge'
        omega
      · intro _
        exact ⟨eT, by rw [hev1]; exact stopMarks_frame _ _⟩

/-- Witness for C1: the completing fifth increment on a bar with total 5
(current 4) yields current 5 and exactly one stop invocation. -/
theorem Add_lifecycle_witness :
    ((Add (mkBar 5 4) cEnv 1).getD ⟨none, mkBar 5 4, []⟩).state.Current
        = (mkBar 5 4).Current + 1 ∧
    stopMarks ((Add (mkBar 5 4) cEnv 1).getD ⟨none, mkBar 5 4, []⟩).events = 1 := by
  have h := Add_lifecycle (mkBar 5 4) cEnv 1
    ((Add (mkBar 5 4) cEnv 1).getD ⟨none, mkBar 5 4, []⟩) (by decide) rfl
  exact ⟨h.1, (h.2.2.1 (by decide)).2.1⟩

/-- C5 as stated is false: `Add` renders *before* clamping, so an
overshooting call (total 5, current 4, `Add 3`) emits a frame whose state
has `Current = 7 > Total = 5` — a fraction above 100%. -/
theorem Add_overshoot_render_cex :
    (Add (mkBar 5 4) cEnv 3).map (fun o => o.events.any frameOvershoot)
      = some true := by decide

/-- C5 amended: when the call does not overshoot
(`Current + count ≤ Total`), every frame emitted during `Add` is rendered
at a state with `Current ≤ Total` (never above 100%). -/
theorem Add_renders_le_total (p : ProgressbarPrinter) (env : RenderEnv) (c : Int)
    (out : AddOut) (hc : p.Current + c ≤ p.Total) (h : Add p env c = some out) :
    out.events.all frameOk = true := by
  unfold Add at h
  split at h
  · simp only [Option.some.injEq] at h
    subst h
    rfl
  · split at h
    · exact absurd h (by simp)
    · next p2 ev1 hup =>
      obtain ⟨s1, hg1, hev1⟩ := updateProgress_some hup
      have hpres := getString_pres hg1
      have e3 : p2.Current = p.Current + c := by simpa using hpres.1
      have eT : p2.Total = p.Total := by simpa using hpres.2.1
      split at h
      · next hge =>
        split at h
        · exact absurd h (by simp)
        · next p4 ev2 hup2 =>
          obtain ⟨s2, hg2, hev2⟩ := updateProgress_some hup2
          split at h
          · exact absurd h (by simp)
          · next p5 ev3 hstop =>
            have hall : ev3.all frameOk = true := (Stop_some hstop).2.2.2.2.2.2
            simp only [Option.some.injEq] at h
            subst h
            show (ev1 ++ ev2 ++ ev3).all frameOk = true
            rw [hev1, hev2]
            simp only [List.cons_append, List.nil_append, List.all_cons, hall,
              Bool.and_true, Bool.and_eq_true, frameOk, decide_eq_true_eq]
            refine ⟨?_, ?_⟩
            · show p.Current + c ≤ p.Total
              exact hc
            · show p2.Current ≤ p2.Current
              exact le_refl _
      · next hge =>
        simp only [Option.some.injEq] at h
        subst h
        show ev1.all frameOk = true
        rw [hev1]
        simp only [List.all_cons, List.all_nil, Bool.and_true, frameOk,
          decide_eq_true_eq]
        show p.Current + c ≤ p.Total
        exact hc

/-- Witness for the amended C5: the exactly-completing fifth increment
renders only frames at or below 100%. -/
theorem Add_renders_le_total_witness :
    ((Add (mkBar 5 4) cEnv 1).getD ⟨none, mkBar 5 4, []⟩).events.all frameOk
      = true :=
  Add_renders_le_total (mkBar 5 4) cEnv 1 _ (by decide) rfl

/-- C4 as stated is false: a second consecutive `Stop` still performs a
cursor action — the source calls `cursor.Show()` before checking the
active flag, so the second call's event trace is `[cursorShow]`, not
empty. -/
theorem Stop_second_call_cex :
    ((Stop (mkBar 5 5)).bind fun r => Stop r.1).map (fun r => r.2)
        = some [Event.cursorShow] ∧
    ([Event.cursorShow] : List Event) ≠ [] := ⟨by decide, by decide⟩

/-- C4 amended: `Stop` is idempotent up to the unconditional
`cursor.Show()`: after any successful `Stop` the bar is inactive with no
active rerender task, and a `Stop` on such a state changes nothing,
writes nothing to the output, and returns successfully (nil error) — its
only side effect is the cursor-show. -/
theorem Stop_idempotent_amended :
    (∀ p q ev, Stop p = some (q, ev) →
      q.atomicIsActive = some false ∧ q.rerenderTask ≠ some true) ∧
    (∀ p, p.atomicIsActive = some false → p.rerenderTask ≠ some true →
      Stop p = some (p, [Event.cursorShow])) := by
  constructor
  · intro p q ev h
    have hs := Stop_some h
    exact ⟨hs.2.2.1, hs.2.2.2.1⟩
  · intro p h1 h2
    simp [Stop, stopTask, stopTaskEvents, h1, h2]

/-- Witness for the amended C4: stopping an already-stopped bar is the
identity plus a lone cursor-show. -/
theorem Stop_idempotent_amended_witness :
    Stop { mkBar 5 5 with IsActive := false, atomicIsActive := some false }
      = some ({ mkBar 5 5 with IsActive := false, atomicIsActive := some false },
        [Event.cursorShow]) :=
  Stop_idempotent_amended.2 _ rfl (by decide)

/-- C10: the thread-safe atomics are initialized only by `lazyInit`
(run by the `With*` setters and `Start`); the mutating methods
dereference them directly, so on a printer whose atomics are still nil,
`UpdateTitle`, `Stop`, and `Add` (with `Total ≠ 0`, which renders and
reads `atomicIsActive`) all panic, while after initialization (both
atomics set) they are safe. -/
theorem atomic_lazyInit_panic_safety :
    (∀ p, ((lazyInit p).atomicIsActive).isSome ∧ ((lazyInit p).atomicTitle).isSome) ∧
    (∀ p t total, ((WithTitle p t).atomicIsActive).isSome ∧
      ((WithTitle p t).atomicTitle).isSome ∧
      ((WithTotal p total).atomicIsActive).isSome ∧
      ((WithTotal p total).atomicTitle).isSome) ∧
    (∀ p env t, p.atomicTitle = none → UpdateTitle p env t = none) ∧
    (∀ p, p.atomicIsActive = none → Stop p = none) ∧
    (∀ p env c, p.atomicIsActive = none → p.Total ≠ 0 → Add p env c = none) ∧
    (∀ p env t, p.atomicIsActive.isSome → p.atomicTitle.isSome →
      (UpdateTitle p env t).isSome) ∧
    (∀ p, p.atomicIsActive.isSome → (Stop p).isSome) ∧
    (∀ p env c, p.atomicIsActive.isSome → p.atomicTitle.isSome →
      (Add p env c).isSome) := by
  refine ⟨lazyInit_atomics, ?_, ?_, ?_, ?_, ?_, fun p => Stop_isSome, ?_⟩
  · intro p t total
    refine ⟨(lazyInit_atomics p).1, by simp [WithTitle], ?_, ?_⟩
    · show ((lazyInit p).atomicIsActive).isSome
      exact (lazyInit_atomics p).1
    · show ((lazyInit p).atomicTitle).isSome
      exact (lazyInit_atomics p).2
  · intro p env t h
    simp [UpdateTitle, h]
  · intro p h
    unfold Stop
    rw [stopTask_atomicIsActive, h]
  · intro p env c hA hT
    unfold Add
    rw [if_neg hT]
    have : updateProgress { p with Current := p.Current + c } env = none := by
      simp [updateProgress, getString, hA]
    rw [this]
  · intro p env t h1 h2
    cases hT : p.atomicTitle with
    | none => simp [hT] at h2
    | some t0 =>
      simp only [UpdateTitle, hT]
      exact updateProgress_isSome (by simpa using h1) (by simp)
  · intro p env c h1 h2
    unfold Add
    split
    · simp
    · have hup1 : (updateProgress { p with Current := p.Current + c } env).isSome :=
        updateProgress_isSome (by simpa using h1) (by simpa using h2)
      cases hup : updateProgress { p with Current := p.Current + c } env with
      | none => rw [hup] at hup1; simp at hup1
      | some r =>
        obtain ⟨p2, ev1⟩ := r
        have hpres := updateProgress_pres hup
        simp only []
        split
        · have hup2 : (updateProgress { p2 with Total := p2.Current } env).isSome := by
            apply updateProgress_isSome
            · show ((p2.atomicIsActive)).isSome
              rw [hpres.2.2.1]
              simpa using h1
            · show ((p2.atomicTitle)).isSome
              rw [hpres.2.2.2.1]
              simpa using h2
          split
          · next heq => rw [heq] at hup2; simp at hup2
          · next p4 ev2 heq =>
            have hpres2 := updateProgress_pres heq
            have hstop : (Stop p4).isSome := by
              apply Stop_isSome
              rw [hpres2.2.2.1]
              show ((p2.atomicIsActive)).isSome
              rw [hpres.2.2.1]
              simpa using h1
            split
            · next heq2 => rw [heq2] at hstop; simp at hstop
            · simp
        · simp

/-- Witness for C10: the zero-value bar panics on `UpdateTitle`, `Stop`
and (with a nonzero total) `Add`, while an initialized bar does not. -/
theorem atomic_lazyInit_panic_safety_witness :
    UpdateTitle zeroBar cEnv "x" = none ∧
    Stop zeroBar = none ∧
    Add { zeroBar with Total := 5 } cEnv 1 = none ∧
    ((lazyInit zeroBar).atomicIsActive).isSome = true ∧
    (UpdateTitle (mkBar 5 0) cEnv "x").isSome = true := by
  refine ⟨?_, ?_, ?_, ?_, ?_⟩
  · exact atomic_lazyInit_panic_safety.2.2.1 zeroBar cEnv "x" rfl
  · exact atomic_lazyInit_panic_safety.2.2.2.1 zeroBar rfl
  · exact atomic_lazyInit_panic_safety.2.2.2.2.1 _ cEnv 1 rfl (by decide)
  · exact (atomic_lazyInit_panic_safety.1 zeroBar).1
  · exact atomic_lazyInit_panic_safety.2.2.2.2.2.1 (mkBar 5 0) cEnv "x"
      (by decide) (by decide)

end Pterm
